import Mathlib

/-!
Verification of the `HistoryService` navigation-history state machine from
`ngx-history` (`projects/ngx-history/src/lib/history.service.ts`).

The service is embedded shallowly: the mutable fields of the TypeScript class
become a record `HistoryState`, each private/public method becomes a pure
function from state to state (fallible ones also return the `boolean` the
promise settles to), and the emissions onto the `navigationError$` subject are
accumulated in an `errors` log inside the state.  The asynchronous
environment is made explicit:

* the Angular `Location` is modelled by a `location` field; an external
  location change sets it and then runs the `onUrlChange` callback, exactly
  as `setupLocationListener` registers it;
* the `Router.navigateByUrl` collaborator ("Navigator") is modelled by a
  `NavOutcome` parameter: it resolved `true`, resolved `false`, or threw.
  On success it transitions the observed location to the target and (when
  the URL actually changes) fires the `onUrlChange` echo, per the
  collaborator contract;
* JavaScript numbers used as indices are modelled by `Int` where the code
  compares against negative values (`index < 0`, `length - 1`) and by `Nat`
  for the stored `_currentIndex`, which the code keeps nonnegative
  (`Math.max(0, …)` is `Nat` subtraction).
-/

namespace NgxHistory

/-- The `NavigationErrorType` union from the source. -/
inductive ErrorType where
  | NAVIGATION_FAILED
  | INVALID_INDEX
  | INITIALIZATION_FAILED
  | CONCURRENT_NAVIGATION
deriving DecidableEq

/-- A `NavigationError` event: its `type`, and whether the optional
`originalError` field was supplied to `emitError` (the `message` and
`timestamp` fields carry no state-machine content). -/
structure NavError where
  type : ErrorType
  hasOriginalError : Bool
deriving DecidableEq

/-- The `HistoryConfig` interface. -/
structure HistoryConfig where
  maxHistoryLength : Nat
  debugMode : Bool
  autoInitialize : Bool
  defaultRoute : String
deriving DecidableEq

/-- `DEFAULT_HISTORY_CONFIG` from the source. -/
def DEFAULT_HISTORY_CONFIG : HistoryConfig :=
  { maxHistoryLength := 50, debugMode := false, autoInitialize := true,
    defaultRoute := "/" }

/-- The mutable fields of `HistoryService`, plus the observed location and
the log of errors emitted on `navigationError$`. -/
structure HistoryState where
  paths : List String
  currentIndex : Nat
  isNavigating : Bool
  isInternalNavigation : Bool
  previousPath : Option String
  isInitialized : Bool
  location : String
  errors : List NavError
deriving DecidableEq

/-- The state of a freshly constructed service (with `autoInitialize`
disabled): empty stack, index `0`, all flags cleared, `previousPath`
undefined; the environment's observed location is `loc`. -/
def freshState (loc : String) : HistoryState :=
  { paths := [], currentIndex := 0, isNavigating := false,
    isInternalNavigation := false, previousPath := none,
    isInitialized := false, location := loc, errors := [] }

/-- Getter `canGoBack`: `this._currentIndex > 0`. -/
def canGoBack (s : HistoryState) : Bool :=
  decide (0 < s.currentIndex)

/-- Getter `canGoForward`: `this._currentIndex < this._paths.length - 1`,
a JavaScript (signed) comparison. -/
def canGoForward (s : HistoryState) : Bool :=
  decide ((s.currentIndex : Int) < (s.paths.length : Int) - 1)

/-- Getter `currentPath`: `this.location.path() || (this.config?.defaultRoute || '/')`.
The `||` falls through on the empty string. -/
def currentPath (cfg : HistoryConfig) (s : HistoryState) : String :=
  let d := if cfg.defaultRoute = "" then "/" else cfg.defaultRoute
  if s.location = "" then d else s.location

/-- Getter `historyLength`: `this._paths.length`. -/
def historyLength (s : HistoryState) : Nat :=
  s.paths.length

/-- `emitError`: push a `NavigationError` onto the `navigationError$` stream,
recorded here as an append to the `errors` log. -/
def emitError (e : NavError) (s : HistoryState) : HistoryState :=
  { s with errors := s.errors ++ [e] }

/-- `addToHistory(path)`: push `path`; if the stack then exceeds
`maxHistoryLength`, splice that many entries off the front and decrement
`_currentIndex` by the removed count, floored at 0 (`Math.max(0, …)` is
`Nat` subtraction here). -/
def addToHistory (cfg : HistoryConfig) (path : String) (s : HistoryState) :
    HistoryState :=
  let paths1 := s.paths ++ [path]
  if cfg.maxHistoryLength < paths1.length then
    let removedCount := paths1.length - cfg.maxHistoryLength
    { s with paths := paths1.drop removedCount,
             currentIndex := s.currentIndex - removedCount }
  else
    { s with paths := paths1 }

/-- `handleExternalNavigation(path)`: if `_currentIndex < _paths.length - 1`
(signed comparison), splice off everything after `_currentIndex`; then
`addToHistory(path)` and set `_currentIndex = _paths.length - 1`. -/
def handleExternalNavigation (cfg : HistoryConfig) (path : String)
    (s : HistoryState) : HistoryState :=
  let s1 :=
    if (s.currentIndex : Int) < (s.paths.length : Int) - 1 then
      { s with paths := s.paths.take (s.currentIndex + 1) }
    else s
  let s2 := addToHistory cfg path s1
  { s2 with currentIndex := s2.paths.length - 1 }

/-- `handleInternalNavigation()`: clear both in-flight flags. -/
def handleInternalNavigation (s : HistoryState) : HistoryState :=
  { s with isInternalNavigation := false, isNavigating := false }

/-- The callback registered by `setupLocationListener`: ignore the
notification when the path equals `previousPath`, else record it and
dispatch on `isInternalNavigation`. -/
def onUrlChange (cfg : HistoryConfig) (path : String) (s : HistoryState) :
    HistoryState :=
  if s.previousPath = some path then s
  else
    let s1 := { s with previousPath := some path }
    if s1.isInternalNavigation then handleInternalNavigation s1
    else handleExternalNavigation cfg path s1

/-- An external agent changes the observed location to `path`; the
`LocationObserver` then invokes the `onUrlChange` callback. -/
def externalLocationChange (cfg : HistoryConfig) (path : String)
    (s : HistoryState) : HistoryState :=
  onUrlChange cfg path { s with location := path }

/-- A sequence of external location-change notifications, oldest first. -/
def notifyAll (cfg : HistoryConfig) (ps : List String) (s : HistoryState) :
    HistoryState :=
  ps.foldl (fun t p => externalLocationChange cfg p t) s

/-- `handleBrowserHistoryChange()` (popstate): read `this.currentPath`; if it
occurs in the stack, jump `_currentIndex` to its first occurrence
(`indexOf`); otherwise treat it as an external navigation. -/
def handleBrowserHistoryChange (cfg : HistoryConfig) (s : HistoryState) :
    HistoryState :=
  let p := currentPath cfg s
  if p ∈ s.paths then
    { s with currentIndex := s.paths.indexOf p }
  else
    handleExternalNavigation cfg p s

/-- Outcome of the awaited `router.navigateByUrl` call: resolved with a
boolean, or threw. -/
inductive NavOutcome where
  | resolved (success : Bool)
  | thrown
deriving DecidableEq

/-- The side effect of a successful Navigator call: the observed location
becomes `target`, and if the URL actually changed the `onUrlChange`
callback fires (per the `Location` contract a change event accompanies each
distinct transition, and none when the URL is already `target`). -/
def navigatorEcho (cfg : HistoryConfig) (target : String) (s : HistoryState) :
    HistoryState :=
  if s.location = target then s
  else onUrlChange cfg target { s with location := target }

/-- `performNavigation(index)`: set the in-flight flags, optimistically move
`_currentIndex`, then await `router.navigateByUrl(this._paths[index])`.  On
resolved `true` the location transitions (echo) and `true` is returned; on
resolved `false` a `NAVIGATION_FAILED` error without a cause is emitted, the
flags are cleared and `false` is returned; on a thrown fault the error
carries the cause, the flags are cleared and `false` is returned. -/
def performNavigation (cfg : HistoryConfig) (nav : NavOutcome) (index : Int)
    (s : HistoryState) : HistoryState × Bool :=
  let s1 := { s with isNavigating := true, isInternalNavigation := true,
                     currentIndex := index.toNat }
  let targetPath := s1.paths.getD index.toNat ""
  match nav with
  | .resolved true => (navigatorEcho cfg targetPath s1, true)
  | .resolved false =>
      (emitError { type := .NAVIGATION_FAILED, hasOriginalError := false }
        { s1 with isInternalNavigation := false, isNavigating := false },
       false)
  | .thrown =>
      (emitError { type := .NAVIGATION_FAILED, hasOriginalError := true }
        { s1 with isInternalNavigation := false, isNavigating := false },
       false)

/-- `navigateToIndex(index)`: reject out-of-range indices with
`INVALID_INDEX` and no mutation.  Otherwise, if a navigation is already in
flight (`navigationPromise` non-null, here the flag `inFlight`), emit
`CONCURRENT_NAVIGATION` and await it — `settle` is the state transformation
the in-flight navigation performs before this one proceeds — then run
`performNavigation` with the originally given `index`. -/
def navigateToIndex (cfg : HistoryConfig) (nav : NavOutcome) (index : Int)
    (inFlight : Bool) (settle : HistoryState → HistoryState)
    (s : HistoryState) : HistoryState × Bool :=
  if index < 0 ∨ (s.paths.length : Int) ≤ index then
    (emitError { type := .INVALID_INDEX, hasOriginalError := false } s, false)
  else
    let s1 :=
      if inFlight then
        emitError { type := .CONCURRENT_NAVIGATION, hasOriginalError := false } s
      else s
    let s2 := if inFlight then settle s1 else s1
    performNavigation cfg nav index s2

/-- `navigateToIndex` when no navigation is in flight. -/
def navigateToIndexIdle (cfg : HistoryConfig) (nav : NavOutcome) (index : Int)
    (s : HistoryState) : HistoryState × Bool :=
  navigateToIndex cfg nav index false id s

/-- `goBack()`: guard on `canGoBack`, else `INVALID_INDEX`; then delegate to
`navigateToIndex(this._currentIndex - 1)`. -/
def goBack (cfg : HistoryConfig) (nav : NavOutcome) (s : HistoryState) :
    HistoryState × Bool :=
  if ¬ canGoBack s then
    (emitError { type := .INVALID_INDEX, hasOriginalError := false } s, false)
  else
    navigateToIndexIdle cfg nav ((s.currentIndex : Int) - 1) s

/-- `goForward()`: guard on `canGoForward`, else `INVALID_INDEX`; then
delegate to `navigateToIndex(this._currentIndex + 1)`. -/
def goForward (cfg : HistoryConfig) (nav : NavOutcome) (s : HistoryState) :
    HistoryState × Bool :=
  if ¬ canGoForward s then
    (emitError { type := .INVALID_INDEX, hasOriginalError := false } s, false)
  else
    navigateToIndexIdle cfg nav ((s.currentIndex : Int) + 1) s

/-- `navigateToPath(path)`: `indexOf` lookup; `INVALID_INDEX` when absent,
else delegate to `navigateToIndex` at the first occurrence. -/
def navigateToPath (cfg : HistoryConfig) (nav : NavOutcome) (path : String)
    (s : HistoryState) : HistoryState × Bool :=
  if path ∈ s.paths then
    navigateToIndexIdle cfg nav (s.paths.indexOf path : Nat) s
  else
    (emitError { type := .INVALID_INDEX, hasOriginalError := false } s, false)

/-- `clearHistory()`: truncate the stack to empty and reset the index;
navigation flags are untouched. -/
def clearHistory (s : HistoryState) : HistoryState :=
  { s with paths := [], currentIndex := 0 }

/-- The resolution `path || this.currentPath || this.config?.defaultRoute || '/'`
performed by `initialize` (the `currentPath` getter is never the empty
string, so the chain ends there). -/
def initialPathOf (cfg : HistoryConfig) (pathArg : Option String)
    (s : HistoryState) : String :=
  match pathArg with
  | some p => if p = "" then currentPath cfg s else p
  | none => currentPath cfg s

/-- `initialize(path?)`: resolve the target path, set the in-flight flags,
await the Navigator.  On resolved `true` (location echo included): clear the
stack, `addToHistory` the resolved path, set `_currentIndex = 0`, mark
initialized, clear the flags, return `true`.  On resolved `false`: emit
`INITIALIZATION_FAILED` (no cause), clear the flags, return `false`.  On a
thrown fault: emit `INITIALIZATION_FAILED` with the cause, clear the flags,
return `false`. -/
def initializeService (cfg : HistoryConfig) (nav : NavOutcome)
    (pathArg : Option String) (s : HistoryState) : HistoryState × Bool :=
  let initialPath := initialPathOf cfg pathArg s
  let s1 := { s with isNavigating := true, isInternalNavigation := true }
  match nav with
  | .resolved true =>
      let s2 := navigatorEcho cfg initialPath s1
      let s3 := addToHistory cfg initialPath { s2 with paths := [] }
      let s4 := { s3 with currentIndex := 0, isInitialized := true }
      ({ s4 with isNavigating := false, isInternalNavigation := false }, true)
  | .resolved false =>
      let s2 := emitError
        { type := .INITIALIZATION_FAILED, hasOriginalError := false } s1
      ({ s2 with isNavigating := false, isInternalNavigation := false }, false)
  | .thrown =>
      let s2 := emitError
        { type := .INITIALIZATION_FAILED, hasOriginalError := true } s1
      ({ s2 with isNavigating := false, isInternalNavigation := false }, false)

/-- The index invariant: once the stack is non-empty the index addresses an
entry; while the stack is (transiently) empty the index is `0`. -/
def Inv (s : HistoryState) : Prop :=
  s.currentIndex < s.paths.length ∨ (s.paths = [] ∧ s.currentIndex = 0)

/-- `performNavigation` never changes the stack: the success echo is
classified as internal (the flag was just set), and the failure branches
only touch flags and errors. -/
theorem performNavigation_paths (cfg : HistoryConfig) (nav : NavOutcome)
    (index : Int) (s : HistoryState) :
    (performNavigation cfg nav index s).1.paths = s.paths := by
  cases nav with
  | thrown => rfl
  | resolved b =>
    cases b with
    | false => rfl
    | true =>
      simp only [performNavigation, navigatorEcho, onUrlChange,
        handleInternalNavigation]
      split_ifs <;> simp_all

/-- `performNavigation` leaves `_currentIndex` at the requested index in
every outcome (the optimistic move is never rolled back). -/
theorem performNavigation_currentIndex (cfg : HistoryConfig)
    (nav : NavOutcome) (index : Int) (s : HistoryState) :
    (performNavigation cfg nav index s).1.currentIndex = index.toNat := by
  cases nav with
  | thrown => rfl
  | resolved b =>
    cases b with
    | false => rfl
    | true =>
      simp only [performNavigation, navigatorEcho, onUrlChange,
        handleInternalNavigation]
      split_ifs <;> simp_all

/-- `performNavigation` only ever appends to the error log. -/
theorem performNavigation_errors_sublist (cfg : HistoryConfig)
    (nav : NavOutcome) (index : Int) (s : HistoryState) :
    List.Sublist s.errors (performNavigation cfg nav index s).1.errors := by
  cases nav with
  | thrown => exact List.sublist_append_left _ _
  | resolved b =>
    cases b with
    | false => exact List.sublist_append_left _ _
    | true =>
      simp only [performNavigation, navigatorEcho, onUrlChange,
        handleInternalNavigation]
      split_ifs <;> simp_all

/-- On a successful Navigator outcome `performNavigation` returns `true`,
and the location ends at the target entry. -/
theorem performNavigation_success_spec (cfg : HistoryConfig) (index : Int)
    (s : HistoryState) :
    (performNavigation cfg (.resolved true) index s).2 = true ∧
    (performNavigation cfg (.resolved true) index s).1.location =
      s.paths.getD index.toNat "" ∧
    (performNavigation cfg (.resolved true) index s).1.errors = s.errors := by
  refine ⟨rfl, ?_, ?_⟩ <;>
    · simp only [performNavigation, navigatorEcho, onUrlChange,
        handleInternalNavigation]
      split_ifs <;> simp_all

/-- Dropping the surplus before appending and then dropping again is the
same as appending first and dropping once: the list algebra behind one
eviction step on an already-bounded stack. -/
theorem drop_append_singleton_evict (l : List String) (p : String) (m : Nat)
    (hm : 0 < m) :
    ((l.drop (l.length - m)) ++ [p]).drop
        ((l.drop (l.length - m)).length + 1 - m) =
      (l ++ [p]).drop (l.length + 1 - m) := by
  rcases le_or_lt l.length m with h | h
  · have h1 : l.length - m = 0 := by omega
    simp [h1]
  · have h1 : (l.drop (l.length - m)).length = m := by
      simp only [List.length_drop]; omega
    rw [h1]
    have h2 : m + 1 - m = 1 := by omega
    rw [h2]
    have h3 : l.length + 1 - m ≤ l.length := by omega
    rw [List.drop_append_of_le_length h3]
    have h4 : 1 ≤ (l.drop (l.length - m)).length := by omega
    rw [List.drop_append_of_le_length h4, List.drop_drop]
    congr 2
    omega

/-- One external location change processed at the top of the stack (the
running configuration of a pure notification sequence): the new path is
appended, the eviction bound applied, and the index re-pinned to the top. -/
theorem externalStep_at_top (cfg : HistoryConfig) (p : String)
    (s : HistoryState) (hci : s.currentIndex = s.paths.length - 1)
    (hprev : s.previousPath ≠ some p)
    (hint : s.isInternalNavigation = false) :
    (externalLocationChange cfg p s).paths =
      (s.paths ++ [p]).drop (s.paths.length + 1 - cfg.maxHistoryLength) ∧
    (externalLocationChange cfg p s).currentIndex =
      (externalLocationChange cfg p s).paths.length - 1 ∧
    (externalLocationChange cfg p s).previousPath = some p ∧
    (externalLocationChange cfg p s).location = p ∧
    (externalLocationChange cfg p s).isInternalNavigation = false := by
  simp only [externalLocationChange, onUrlChange, handleExternalNavigation,
    addToHistory, handleInternalNavigation]
  rw [if_neg hprev]
  simp only [hint, if_false, Bool.false_eq_true]
  have hnotrunc : ¬ ((s.currentIndex : Int) < (s.paths.length : Int) - 1) := by
    omega
  rw [if_neg hnotrunc]
  split_ifs with hevict
  · simp [List.length_append]
  · have h0 : s.paths.length + 1 - cfg.maxHistoryLength = 0 := by
      simp only [List.length_append, List.length_cons, List.length_nil]
        at hevict
      omega
    rw [h0, List.drop_zero]
    simp

/-- Running a deduplication-safe notification sequence from a fresh state:
the stack is the suffix of the sequence allowed by the bound, the index
pins the top, and the last notification is remembered and observed. -/
theorem notifyAll_from_empty (cfg : HistoryConfig)
    (hmax : 0 < cfg.maxHistoryLength) (ps : List String) (hne : ps ≠ [])
    (hch : ps.Chain' Ne) (s0 : HistoryState) (h1 : s0.paths = [])
    (h2 : s0.currentIndex = 0) (h3 : s0.previousPath = none)
    (h4 : s0.isInternalNavigation = false) :
    (notifyAll cfg ps s0).paths =
      ps.drop (ps.length - cfg.maxHistoryLength) ∧
    (notifyAll cfg ps s0).currentIndex =
      (notifyAll cfg ps s0).paths.length - 1 ∧
    (notifyAll cfg ps s0).previousPath = ps.getLast? ∧
    some (notifyAll cfg ps s0).location = ps.getLast? ∧
    (notifyAll cfg ps s0).isInternalNavigation = false := by
  induction ps using List.reverseRecOn with
  | nil => exact absurd rfl hne
  | append_singleton qs p ih =>
    rcases eq_or_ne qs [] with hq | hq
    · subst hq
      have hstep := externalStep_at_top cfg p s0
        (by rw [h1, h2]; rfl) (by rw [h3]; exact Option.noConfusion) h4
      have hrun : notifyAll cfg ([] ++ [p]) s0 = externalLocationChange cfg p s0 := rfl
      rw [hrun]
      obtain ⟨e1, e2, e3, e4, e5⟩ := hstep
      rw [h1] at e1
      refine ⟨?_, e2, ?_, ?_, e5⟩
      · simpa using e1
      · simpa using e3
      · simp [e4]
    · have hch' : qs.Chain' Ne := (List.chain'_append.mp hch).1
      have hlastp : qs.getLast hq ≠ p := by
        have hR := (List.chain'_append.mp hch).2.2
        refine hR (qs.getLast hq) ?_ p rfl
        rw [List.getLast?_eq_getLast qs hq]
        rfl
      have ihq := ih hq hch'
      obtain ⟨ihp, ihci, ihprev, ihloc, ihint⟩ := ihq
      have hrun : notifyAll cfg (qs ++ [p]) s0 =
          externalLocationChange cfg p (notifyAll cfg qs s0) := by
        simp [notifyAll, List.foldl_append]
      have hprev' : (notifyAll cfg qs s0).previousPath ≠ some p := by
        rw [ihprev, List.getLast?_eq_getLast qs hq]
        intro hcontra
        exact hlastp (Option.some.inj hcontra)
      have hstep := externalStep_at_top cfg p (notifyAll cfg qs s0)
        ihci hprev' ihint
      obtain ⟨e1, e2, e3, e4, e5⟩ := hstep
      rw [hrun]
      refine ⟨?_, e2, ?_, ?_, e5⟩
      · rw [e1, ihp]
        rw [drop_append_singleton_evict qs p cfg.maxHistoryLength hmax]
        have hl : (qs ++ [p]).length = qs.length + 1 := by simp
        rw [hl]
      · rw [e3, List.getLast?_concat]
      · rw [e4, List.getLast?_concat]

/-- With a positive bound, `addToHistory` never leaves an empty stack. -/
theorem addToHistory_ne_nil (cfg : HistoryConfig)
    (hmax : 0 < cfg.maxHistoryLength) (p : String) (s : HistoryState) :
    (addToHistory cfg p s).paths ≠ [] := by
  simp only [addToHistory]
  split_ifs with h
  · intro hnil
    have hlen := congrArg List.length hnil
    simp only [List.length_drop, List.length_append, List.length_cons,
      List.length_nil] at hlen h
    omega
  · simp

/-- `addToHistory` preserves the index invariant. -/
theorem Inv_addToHistory (cfg : HistoryConfig)
    (hmax : 0 < cfg.maxHistoryLength) (p : String) (s : HistoryState)
    (h : Inv s) : Inv (addToHistory cfg p s) := by
  have h' : s.currentIndex < s.paths.length ∨
      (s.paths.length = 0 ∧ s.currentIndex = 0) := by
    rcases h with h | ⟨ha, hb⟩
    · exact Or.inl h
    · exact Or.inr ⟨by rw [ha]; rfl, hb⟩
  simp only [addToHistory, Inv]
  split_ifs with hcond
  · left
    simp only [List.length_drop, List.length_append, List.length_cons,
      List.length_nil] at hcond ⊢
    omega
  · left
    simp only [List.length_append, List.length_cons, List.length_nil]
    omega

/-- `handleExternalNavigation` re-pins the index to the (non-empty) top. -/
theorem Inv_handleExternalNavigation (cfg : HistoryConfig)
    (hmax : 0 < cfg.maxHistoryLength) (p : String) (s : HistoryState) :
    Inv (handleExternalNavigation cfg p s) := by
  left
  have hne := addToHistory_ne_nil cfg hmax p
    (if (s.currentIndex : Int) < (s.paths.length : Int) - 1 then
      { s with paths := s.paths.take (s.currentIndex + 1) }
    else s)
  have hpos : 0 < (addToHistory cfg p
      (if (s.currentIndex : Int) < (s.paths.length : Int) - 1 then
        { s with paths := s.paths.take (s.currentIndex + 1) }
      else s)).paths.length := List.length_pos.mpr hne
  show (addToHistory cfg p
      (if (s.currentIndex : Int) < (s.paths.length : Int) - 1 then
        { s with paths := s.paths.take (s.currentIndex + 1) }
      else s)).paths.length - 1 < (addToHistory cfg p
      (if (s.currentIndex : Int) < (s.paths.length : Int) - 1 then
        { s with paths := s.paths.take (s.currentIndex + 1) }
      else s)).paths.length
  omega

/-- Any location-change notification preserves the index invariant. -/
theorem Inv_externalLocationChange (cfg : HistoryConfig)
    (hmax : 0 < cfg.maxHistoryLength) (p : String) (s : HistoryState)
    (h : Inv s) : Inv (externalLocationChange cfg p s) := by
  simp only [externalLocationChange, onUrlChange]
  split_ifs with h1 h2
  · exact h
  · exact h
  · exact Inv_handleExternalNavigation cfg hmax p _

/-- `navigateToIndex` in the idle case preserves the index invariant: an
out-of-range index is rejected without mutation, and a valid one becomes
the new current index of the unchanged stack. -/
theorem Inv_navigateToIndexIdle (cfg : HistoryConfig) (nav : NavOutcome)
    (index : Int) (s : HistoryState) (h : Inv s) :
    Inv (navigateToIndexIdle cfg nav index s).1 := by
  simp only [navigateToIndexIdle, navigateToIndex, if_false,
    Bool.false_eq_true]
  split_ifs with hval
  · exact h
  · push_neg at hval
    left
    rw [performNavigation_currentIndex, performNavigation_paths]
    omega

/-- `goBack` preserves the index invariant. -/
theorem Inv_goBack (cfg : HistoryConfig) (nav : NavOutcome)
    (s : HistoryState) (h : Inv s) : Inv (goBack cfg nav s).1 := by
  simp only [goBack]
  split_ifs with h1
  · exact Inv_navigateToIndexIdle cfg nav _ s h
  · exact h

/-- `goForward` preserves the index invariant. -/
theorem Inv_goForward (cfg : HistoryConfig) (nav : NavOutcome)
    (s : HistoryState) (h : Inv s) : Inv (goForward cfg nav s).1 := by
  simp only [goForward]
  split_ifs with h1
  · exact Inv_navigateToIndexIdle cfg nav _ s h
  · exact h

/-- `navigateToPath` preserves the index invariant. -/
theorem Inv_navigateToPath (cfg : HistoryConfig) (nav : NavOutcome)
    (p : String) (s : HistoryState) (h : Inv s) :
    Inv (navigateToPath cfg nav p s).1 := by
  simp only [navigateToPath]
  split_ifs with h1
  · exact Inv_navigateToIndexIdle cfg nav _ s h
  · exact h

/-- `initializeService` preserves the index invariant: success leaves a
singleton stack with index `0`, failure leaves stack and index untouched. -/
theorem Inv_initializeService (cfg : HistoryConfig)
    (hmax : 0 < cfg.maxHistoryLength) (nav : NavOutcome)
    (pathArg : Option String) (s : HistoryState) (h : Inv s) :
    Inv (initializeService cfg nav pathArg s).1 := by
  cases nav with
  | thrown => exact h
  | resolved b =>
    cases b with
    | false => exact h
    | true =>
      left
      have hne := addToHistory_ne_nil cfg hmax
        (initialPathOf cfg pathArg s)
        { navigatorEcho cfg (initialPathOf cfg pathArg s)
            { s with isNavigating := true, isInternalNavigation := true }
          with paths := [] }
      have hpos := List.length_pos.mpr hne
      simpa [initializeService] using hpos

/-- `clearHistory` preserves the index invariant (empty stack, index 0). -/
theorem Inv_clearHistory (s : HistoryState) : Inv (clearHistory s) :=
  Or.inr ⟨rfl, rfl⟩

/-- C2: on an external location change to `p` while
`currentIndex < stack.length - 1`, the handler truncates the stack to
positions `[0, currentIndex]` inclusive, appends `p`, and sets
`currentIndex = stack.length - 1` (on a stack within the configured bound,
as every reachable stack is). -/
theorem C2_truncation (cfg : HistoryConfig) (p : String) (s : HistoryState)
    (h1 : s.currentIndex + 1 < s.paths.length)
    (h2 : s.paths.length ≤ cfg.maxHistoryLength) :
    (handleExternalNavigation cfg p s).paths =
      s.paths.take (s.currentIndex + 1) ++ [p] ∧
    (handleExternalNavigation cfg p s).currentIndex = s.currentIndex + 1 ∧
    (handleExternalNavigation cfg p s).currentIndex =
      (handleExternalNavigation cfg p s).paths.length - 1 := by
  have htr : (s.currentIndex : Int) < (s.paths.length : Int) - 1 := by omega
  have htl : (s.paths.take (s.currentIndex + 1)).length =
      s.currentIndex + 1 := by
    rw [List.length_take]
    omega
  have hev : ¬ (cfg.maxHistoryLength <
      (s.paths.take (s.currentIndex + 1) ++ [p]).length) := by
    simp only [List.length_append, List.length_cons, List.length_nil, htl]
    omega
  simp only [handleExternalNavigation, addToHistory, if_pos htr]
  rw [if_neg hev]
  refine ⟨rfl, ?_, ?_⟩
  · simp only [List.length_append, List.length_cons, List.length_nil, htl]
    omega
  · trivial

/-- Witness for C2 at the claim's own instance: stack `[/a,/b,/c]`,
`currentIndex = 0`, external navigation to `/d`. -/
theorem C2_truncation_witness :
    (handleExternalNavigation DEFAULT_HISTORY_CONFIG "/d"
        { freshState "/c" with
            paths := ["/a", "/b", "/c"], currentIndex := 0 }).paths =
      ["/a", "/d"] ∧
    (handleExternalNavigation DEFAULT_HISTORY_CONFIG "/d"
        { freshState "/c" with
            paths := ["/a", "/b", "/c"], currentIndex := 0 }).currentIndex =
      1 := by
  have h := C2_truncation DEFAULT_HISTORY_CONFIG "/d"
    { freshState "/c" with paths := ["/a", "/b", "/c"], currentIndex := 0 }
    (by decide) (by decide)
  exact ⟨h.1, h.2.1⟩

/-- C6 counterexample: when the Navigator merely resolves `false`, the
`NAVIGATION_FAILED` error that `performNavigation` emits does not carry an
underlying cause (`emitError` is called without the `originalError`
argument), contradicting the claim's "carrying the underlying cause" for
this failure mode. -/
theorem C6_counterexample :
    (performNavigation DEFAULT_HISTORY_CONFIG (.resolved false) 0
        { freshState "/b" with
            paths := ["/a", "/b"], currentIndex := 1 }).1.errors =
      [{ type := ErrorType.NAVIGATION_FAILED, hasOriginalError := false }] ∧
    (performNavigation DEFAULT_HISTORY_CONFIG (.resolved false) 0
        { freshState "/b" with
            paths := ["/a", "/b"], currentIndex := 1 }).2 = false := by
  exact ⟨rfl, rfl⟩

/-- C6 (amended): when the Navigator call fails (resolves `false` or
throws), a `NAVIGATION_FAILED` error is emitted — carrying the underlying
cause exactly when the Navigator threw — `isNavigating` and
`isInternalNavigation` are cleared, the call returns `false`, the
`currentIndex` mutation performed before the Navigator call is not rolled
back, and the stack contents are unchanged. -/
theorem C6_amended_navigationFailure (cfg : HistoryConfig)
    (nav : NavOutcome) (index : Int) (s : HistoryState)
    (hfail : nav ≠ .resolved true) :
    (performNavigation cfg nav index s).2 = false ∧
    (performNavigation cfg nav index s).1.errors =
      s.errors ++ [{ type := ErrorType.NAVIGATION_FAILED,
                     hasOriginalError := decide (nav = NavOutcome.thrown) }] ∧
    (performNavigation cfg nav index s).1.isNavigating = false ∧
    (performNavigation cfg nav index s).1.isInternalNavigation = false ∧
    (performNavigation cfg nav index s).1.currentIndex = index.toNat ∧
    (performNavigation cfg nav index s).1.paths = s.paths := by
  cases nav with
  | thrown => exact ⟨rfl, rfl, rfl, rfl, rfl, rfl⟩
  | resolved b =>
    cases b with
    | false => exact ⟨rfl, rfl, rfl, rfl, rfl, rfl⟩
    | true => exact absurd rfl hfail

/-- Witness for the amended C6, at a thrown Navigator fault. -/
theorem C6_amended_navigationFailure_witness :
    (performNavigation DEFAULT_HISTORY_CONFIG .thrown 0
        { freshState "/b" with
            paths := ["/a", "/b"], currentIndex := 1 }).2 = false ∧
    (performNavigation DEFAULT_HISTORY_CONFIG .thrown 0
        { freshState "/b" with
            paths := ["/a", "/b"], currentIndex := 1 }).1.currentIndex = 0 := by
  have h := C6_amended_navigationFailure DEFAULT_HISTORY_CONFIG .thrown 0
    { freshState "/b" with paths := ["/a", "/b"], currentIndex := 1 }
    (by decide)
  exact ⟨h.1, h.2.2.2.2.1⟩

/-- C9: with `currentIndex = 0` (so `canGoBack` is false), `goBack()`
returns `false`, emits `INVALID_INDEX`, and mutates neither the stack, the
index, nor the navigation flags. -/
theorem C9_goBack_at_zero (cfg : HistoryConfig) (nav : NavOutcome)
    (s : HistoryState) (h : s.currentIndex = 0) :
    (goBack cfg nav s).2 = false ∧
    (goBack cfg nav s).1.errors =
      s.errors ++ [{ type := ErrorType.INVALID_INDEX,
                     hasOriginalError := false }] ∧
    (goBack cfg nav s).1.paths = s.paths ∧
    (goBack cfg nav s).1.currentIndex = s.currentIndex ∧
    (goBack cfg nav s).1.isNavigating = s.isNavigating ∧
    (goBack cfg nav s).1.isInternalNavigation = s.isInternalNavigation := by
  have hcb : ¬ (canGoBack s = true) := by
    simp [canGoBack, h]
  simp only [goBack, if_pos hcb]
  refine ⟨?_, ?_, ?_, ?_, ?_, ?_⟩ <;> trivial

/-- Witness for C9 at a singleton stack. -/
theorem C9_goBack_at_zero_witness :
    (goBack DEFAULT_HISTORY_CONFIG (.resolved true)
        { freshState "/a" with paths := ["/a"] }).2 = false ∧
    (goBack DEFAULT_HISTORY_CONFIG (.resolved true)
        { freshState "/a" with paths := ["/a"] }).1.errors =
      [{ type := ErrorType.INVALID_INDEX, hasOriginalError := false }] := by
  have h := C9_goBack_at_zero DEFAULT_HISTORY_CONFIG (.resolved true)
    { freshState "/a" with paths := ["/a"] } rfl
  exact ⟨h.1, h.2.1⟩

/-- C10: on a popstate change, when the observed path already occurs in the
stack the handler only moves `currentIndex` to its first position (stack,
history length and flags unchanged, nothing appended or truncated); only
when the path is absent is the change handled as an external navigation. -/
theorem C10_browserHistoryChange (cfg : HistoryConfig) (s : HistoryState) :
    (currentPath cfg s ∈ s.paths →
      handleBrowserHistoryChange cfg s =
        { s with currentIndex := s.paths.indexOf (currentPath cfg s) }) ∧
    (currentPath cfg s ∉ s.paths →
      handleBrowserHistoryChange cfg s =
        handleExternalNavigation cfg (currentPath cfg s) s) := by
  constructor <;> intro h <;> simp [handleBrowserHistoryChange, h]

/-- Witness for C10: popstate to `/a` with stack `[/a,/b]` at index 1 jumps
the index to the first occurrence and changes nothing else. -/
theorem C10_browserHistoryChange_witness :
    handleBrowserHistoryChange DEFAULT_HISTORY_CONFIG
        { freshState "/a" with paths := ["/a", "/b"], currentIndex := 1 } =
      { freshState "/a" with paths := ["/a", "/b"], currentIndex := 0 } := by
  have h := (C10_browserHistoryChange DEFAULT_HISTORY_CONFIG
    { freshState "/a" with paths := ["/a", "/b"], currentIndex := 1 }).1
    (by decide)
  rw [h]
  rfl

/-- C1 counterexample: two consecutive notifications for the same path
(`n = 2 ≤ maxHistoryLength`) do not produce `historyLength = 2`: the
`onUrlChange` callback ignores a notification whose path equals
`previousPath`, so only one entry is recorded. -/
theorem C1_counterexample :
    2 ≤ DEFAULT_HISTORY_CONFIG.maxHistoryLength ∧
    historyLength
        (notifyAll DEFAULT_HISTORY_CONFIG ["/a", "/a"] (freshState "/")) ≠
      2 ∧
    historyLength
        (notifyAll DEFAULT_HISTORY_CONFIG ["/a", "/a"] (freshState "/")) =
      1 := by
  refine ⟨by decide, ?_, rfl⟩
  intro h
  rw [show historyLength
      (notifyAll DEFAULT_HISTORY_CONFIG ["/a", "/a"] (freshState "/")) = 1
    from rfl] at h
  omega

/-- C1 (amended): for every sequence of external location-change
notifications to paths `p1…pn` with `n ≤ maxHistoryLength`, in which each
path differs from its immediate predecessor (the callback ignores
duplicate consecutive notifications) and `pn` is non-empty (the
`currentPath` getter falls back to the default route on an empty observed
location), starting from an empty stack: after all notifications are
handled, `historyLength = n`, `currentIndex = n - 1`, and
`currentPath = pn`. -/
theorem C1_amended_externalSequence (cfg : HistoryConfig)
    (hmax : 0 < cfg.maxHistoryLength) (ps : List String) (hne : ps ≠ [])
    (hch : ps.Chain' Ne) (hlen : ps.length ≤ cfg.maxHistoryLength)
    (hlast : ps.getLast hne ≠ "") (loc0 : String) :
    historyLength (notifyAll cfg ps (freshState loc0)) = ps.length ∧
    (notifyAll cfg ps (freshState loc0)).currentIndex = ps.length - 1 ∧
    currentPath cfg (notifyAll cfg ps (freshState loc0)) =
      ps.getLast hne := by
  obtain ⟨e1, e2, e3, e4, e5⟩ := notifyAll_from_empty cfg hmax ps hne hch
    (freshState loc0) rfl rfl rfl rfl
  have hdrop : ps.length - cfg.maxHistoryLength = 0 := by omega
  rw [hdrop, List.drop_zero] at e1
  have hloc : (notifyAll cfg ps (freshState loc0)).location =
      ps.getLast hne := by
    rw [List.getLast?_eq_getLast ps hne] at e4
    exact Option.some.inj e4
  refine ⟨?_, ?_, ?_⟩
  · rw [historyLength, e1]
  · rw [e2, e1]
  · rw [currentPath, hloc]
    simp [hlast]

/-- Witness for the amended C1 at `p1 = /a`, `p2 = /b`. -/
theorem C1_amended_externalSequence_witness :
    historyLength
        (notifyAll DEFAULT_HISTORY_CONFIG ["/a", "/b"] (freshState "/")) =
      2 ∧
    (notifyAll DEFAULT_HISTORY_CONFIG ["/a", "/b"]
        (freshState "/")).currentIndex = 1 ∧
    currentPath DEFAULT_HISTORY_CONFIG
        (notifyAll DEFAULT_HISTORY_CONFIG ["/a", "/b"] (freshState "/")) =
      "/b" := by
  have h := C1_amended_externalSequence DEFAULT_HISTORY_CONFIG (by decide)
    ["/a", "/b"] (by decide) (by simp) (by decide) (by decide) "/"
  exact ⟨h.1, h.2.1, h.2.2⟩

/-- C3: after appending, a stack above the bound is trimmed from the front
to exactly `maxHistoryLength` entries with the index decremented by the
number dropped (floored at 0 — `Nat` subtraction); consequently external
navigations to `maxHistoryLength + k` distinct paths leave
`historyLength = maxHistoryLength` and the stack equal to the most recent
`maxHistoryLength` paths in order. -/
theorem C3_eviction (cfg : HistoryConfig)
    (hmax : 0 < cfg.maxHistoryLength) :
    (∀ (s : HistoryState) (p : String),
      cfg.maxHistoryLength < s.paths.length + 1 →
        (addToHistory cfg p s).paths =
          (s.paths ++ [p]).drop
            (s.paths.length + 1 - cfg.maxHistoryLength) ∧
        (addToHistory cfg p s).paths.length = cfg.maxHistoryLength ∧
        (addToHistory cfg p s).currentIndex =
          s.currentIndex - (s.paths.length + 1 - cfg.maxHistoryLength)) ∧
    (∀ (ps : List String) (loc0 : String), ps.Nodup →
      cfg.maxHistoryLength < ps.length →
        historyLength (notifyAll cfg ps (freshState loc0)) =
          cfg.maxHistoryLength ∧
        (notifyAll cfg ps (freshState loc0)).paths =
          ps.drop (ps.length - cfg.maxHistoryLength)) := by
  constructor
  · intro s p hgt
    have hl : (s.paths ++ [p]).length = s.paths.length + 1 := by simp
    have hcond : cfg.maxHistoryLength < (s.paths ++ [p]).length := by omega
    simp only [addToHistory]
    rw [if_pos hcond]
    refine ⟨by rw [hl], ?_, by rw [hl]⟩
    simp only [List.length_drop, hl]
    omega
  · intro ps loc0 hnd hgt
    have hne : ps ≠ [] := by
      intro hnil
      rw [hnil] at hgt
      simp at hgt
    have hch : ps.Chain' Ne := List.Pairwise.chain' hnd
    obtain ⟨e1, e2, e3, e4, e5⟩ := notifyAll_from_empty cfg hmax ps hne hch
      (freshState loc0) rfl rfl rfl rfl
    refine ⟨?_, e1⟩
    rw [historyLength, e1, List.length_drop]
    omega

/-- Witness for C3: bound 3 exceeded by two distinct extra paths. -/
theorem C3_eviction_witness :
    (notifyAll { DEFAULT_HISTORY_CONFIG with maxHistoryLength := 3 }
        ["/a", "/b", "/c", "/d", "/e"] (freshState "/")).paths =
      ["/c", "/d", "/e"] ∧
    historyLength
        (notifyAll { DEFAULT_HISTORY_CONFIG with maxHistoryLength := 3 }
          ["/a", "/b", "/c", "/d", "/e"] (freshState "/")) = 3 := by
  have h := (C3_eviction
      { DEFAULT_HISTORY_CONFIG with maxHistoryLength := 3 } (by decide)).2
    ["/a", "/b", "/c", "/d", "/e"] "/" (by decide) (by decide)
  exact ⟨h.2, h.1⟩

/-- C4: once the stack is non-empty, `0 ≤ currentIndex < stack.length`
holds, and the index invariant is preserved by `goBack`, `goForward`,
`navigateToPath`, `initialize`, `clearHistory`, external-navigation
handling, and eviction (`addToHistory`), for every Navigator outcome. -/
theorem C4_invariant (cfg : HistoryConfig)
    (hmax : 0 < cfg.maxHistoryLength) (s : HistoryState) (hInv : Inv s) :
    (s.paths ≠ [] →
      0 ≤ s.currentIndex ∧ s.currentIndex < s.paths.length) ∧
    (∀ nav, Inv (goBack cfg nav s).1) ∧
    (∀ nav, Inv (goForward cfg nav s).1) ∧
    (∀ nav p, Inv (navigateToPath cfg nav p s).1) ∧
    (∀ nav pathArg, Inv (initializeService cfg nav pathArg s).1) ∧
    Inv (clearHistory s) ∧
    (∀ p, Inv (externalLocationChange cfg p s)) ∧
    (∀ p, Inv (addToHistory cfg p s)) := by
  refine ⟨?_, fun nav => Inv_goBack cfg nav s hInv,
    fun nav => Inv_goForward cfg nav s hInv,
    fun nav p => Inv_navigateToPath cfg nav p s hInv,
    fun nav pa => Inv_initializeService cfg hmax nav pa s hInv,
    Inv_clearHistory s,
    fun p => Inv_externalLocationChange cfg hmax p s hInv,
    fun p => Inv_addToHistory cfg hmax p s hInv⟩
  intro hnenil
  rcases hInv with h | ⟨ha, _⟩
  · exact ⟨Nat.zero_le _, h⟩
  · exact absurd ha hnenil

/-- Witness for C4 at a concrete two-entry state. -/
theorem C4_invariant_witness :
    Inv (clearHistory
      { freshState "/b" with paths := ["/a", "/b"], currentIndex := 1 }) :=
  (C4_invariant DEFAULT_HISTORY_CONFIG (by decide)
    { freshState "/b" with paths := ["/a", "/b"], currentIndex := 1 }
    (Or.inl (by decide))).2.2.2.2.2.1

/-- C5: a valid index-navigation request arriving while another navigation
is in flight emits `CONCURRENT_NAVIGATION`, awaits the in-flight navigation
(`settle`, which may only append to the error stream) and then executes
`performNavigation` with its originally given index rather than being
dropped, leaving `currentIndex` at that index and settling to a boolean. -/
theorem C5_concurrentNavigation (cfg : HistoryConfig) (nav : NavOutcome)
    (index : Int) (s : HistoryState)
    (settle : HistoryState → HistoryState) (h0 : 0 ≤ index)
    (h1 : index < (s.paths.length : Int))
    (hmono : ∀ t, List.Sublist t.errors (settle t).errors) :
    ({ type := ErrorType.CONCURRENT_NAVIGATION, hasOriginalError := false }
        ∈ (navigateToIndex cfg nav index true settle s).1.errors) ∧
    navigateToIndex cfg nav index true settle s =
      performNavigation cfg nav index
        (settle (emitError
          { type := ErrorType.CONCURRENT_NAVIGATION,
            hasOriginalError := false } s)) ∧
    (navigateToIndex cfg nav index true settle s).1.currentIndex =
      index.toNat ∧
    ((navigateToIndex cfg nav index true settle s).2 = true ∨
      (navigateToIndex cfg nav index true settle s).2 = false) := by
  have hval : ¬ (index < 0 ∨ (s.paths.length : Int) ≤ index) := by omega
  have heq : navigateToIndex cfg nav index true settle s =
      performNavigation cfg nav index
        (settle (emitError
          { type := ErrorType.CONCURRENT_NAVIGATION,
            hasOriginalError := false } s)) := by
    simp [navigateToIndex, hval]
  refine ⟨?_, heq, ?_, ?_⟩
  · rw [heq]
    have hsub : List.Sublist
        (emitError { type := ErrorType.CONCURRENT_NAVIGATION,
                     hasOriginalError := false } s).errors
        (performNavigation cfg nav index
          (settle (emitError { type := ErrorType.CONCURRENT_NAVIGATION,
                               hasOriginalError := false } s))).1.errors :=
      List.Sublist.trans (hmono _)
        (performNavigation_errors_sublist cfg nav index _)
    apply hsub.subset
    simp [emitError]
  · rw [heq, performNavigation_currentIndex]
  · cases hb : (navigateToIndex cfg nav index true settle s).2
    · exact Or.inr rfl
    · exact Or.inl rfl

/-- Witness for C5 at a two-entry stack with an in-flight navigation whose
settlement is the identity. -/
theorem C5_concurrentNavigation_witness :
    ({ type := ErrorType.CONCURRENT_NAVIGATION, hasOriginalError := false }
        ∈ (navigateToIndex DEFAULT_HISTORY_CONFIG (.resolved true) 0 true id
          { freshState "/b" with
              paths := ["/a", "/b"], currentIndex := 1 }).1.errors) ∧
    (navigateToIndex DEFAULT_HISTORY_CONFIG (.resolved true) 0 true id
        { freshState "/b" with
            paths := ["/a", "/b"], currentIndex := 1 }).1.currentIndex =
      0 := by
  have h := C5_concurrentNavigation DEFAULT_HISTORY_CONFIG (.resolved true)
    0 { freshState "/b" with paths := ["/a", "/b"], currentIndex := 1 } id
    (by decide) (by decide) (fun t => List.Sublist.refl t.errors)
  exact ⟨h.1, h.2.2.1⟩

/-- C7: `initialize(path?)` resolves the target path (argument, else the
currently observed location, else the default route — `initialPathOf`) and
invokes the Navigator.  On Navigator success the stack becomes exactly the
resolved path with `currentIndex = 0`, `canGoBack` and `canGoForward`
false, the machine marked initialized, and the call returns `true`; on
Navigator failure (resolved `false` or thrown) an `INITIALIZATION_FAILED`
error is emitted, the call returns `false`, and the prior stack and index
are untouched. -/
theorem C7_initializeBehavior (cfg : HistoryConfig)
    (hmax : 0 < cfg.maxHistoryLength) (pathArg : Option String)
    (s : HistoryState) :
    (initializeService cfg (.resolved true) pathArg s).1.paths =
      [initialPathOf cfg pathArg s] ∧
    (initializeService cfg (.resolved true) pathArg s).1.currentIndex = 0 ∧
    canGoBack (initializeService cfg (.resolved true) pathArg s).1 =
      false ∧
    canGoForward (initializeService cfg (.resolved true) pathArg s).1 =
      false ∧
    (initializeService cfg (.resolved true) pathArg s).1.isInitialized =
      true ∧
    (initializeService cfg (.resolved true) pathArg s).2 = true ∧
    (∀ nav, nav ≠ NavOutcome.resolved true →
      (initializeService cfg nav pathArg s).2 = false ∧
      (initializeService cfg nav pathArg s).1.errors =
        s.errors ++ [{ type := ErrorType.INITIALIZATION_FAILED,
                       hasOriginalError :=
                         decide (nav = NavOutcome.thrown) }] ∧
      (initializeService cfg nav pathArg s).1.paths = s.paths ∧
      (initializeService cfg nav pathArg s).1.currentIndex =
        s.currentIndex) := by
  have hpaths : (initializeService cfg (.resolved true) pathArg s).1.paths =
      [initialPathOf cfg pathArg s] := by
    simp only [initializeService, addToHistory]
    rw [if_neg (by simp; omega)]
    simp
  refine ⟨hpaths, rfl, rfl, ?_, rfl, rfl, ?_⟩
  · simp [canGoForward, hpaths]
  · intro nav hfail
    cases nav with
    | thrown => exact ⟨rfl, rfl, rfl, rfl⟩
    | resolved b =>
      cases b with
      | false => exact ⟨rfl, rfl, rfl, rfl⟩
      | true => exact absurd rfl hfail

/-- Witness for C7 at `initialize("/x")` from a two-entry state. -/
theorem C7_initializeBehavior_witness :
    (initializeService DEFAULT_HISTORY_CONFIG (.resolved true) (some "/x")
        { freshState "/b" with
            paths := ["/a", "/b"], currentIndex := 1 }).1.paths = ["/x"] ∧
    (initializeService DEFAULT_HISTORY_CONFIG (.resolved false) (some "/x")
        { freshState "/b" with
            paths := ["/a", "/b"], currentIndex := 1 }).1.paths =
      ["/a", "/b"] := by
  have h := C7_initializeBehavior DEFAULT_HISTORY_CONFIG (by decide)
    (some "/x")
    { freshState "/b" with paths := ["/a", "/b"], currentIndex := 1 }
  exact ⟨h.1, (h.2.2.2.2.2.2 (.resolved false) (by decide)).2.2.1⟩

/-- A valid idle index-navigation is exactly `performNavigation`. -/
theorem navigateToIndexIdle_valid (cfg : HistoryConfig) (nav : NavOutcome)
    (index : Int) (s : HistoryState) (h0 : 0 ≤ index)
    (h1 : index < (s.paths.length : Int)) :
    navigateToIndexIdle cfg nav index s =
      performNavigation cfg nav index s := by
  have hval : ¬ (index < 0 ∨ (s.paths.length : Int) ≤ index) := by omega
  simp [navigateToIndexIdle, navigateToIndex, hval]

/-- With `canGoBack`, `goBack` is index-navigation to `currentIndex - 1`. -/
theorem goBack_valid (cfg : HistoryConfig) (nav : NavOutcome)
    (s : HistoryState) (h0 : 0 < s.currentIndex)
    (h1 : s.currentIndex ≤ s.paths.length) :
    goBack cfg nav s =
      performNavigation cfg nav ((s.currentIndex : Int) - 1) s := by
  have hcb : ¬ ¬ (canGoBack s = true) := by
    simp [canGoBack]
    omega
  rw [goBack, if_neg hcb]
  exact navigateToIndexIdle_valid cfg nav _ s (by omega) (by omega)

/-- With `canGoForward`, `goForward` is index-navigation to
`currentIndex + 1`. -/
theorem goForward_valid (cfg : HistoryConfig) (nav : NavOutcome)
    (s : HistoryState)
    (h1 : (s.currentIndex : Int) < (s.paths.length : Int) - 1) :
    goForward cfg nav s =
      performNavigation cfg nav ((s.currentIndex : Int) + 1) s := by
  have hcf : ¬ ¬ (canGoForward s = true) := by
    simp [canGoForward]
    omega
  rw [goForward, if_neg hcf]
  exact navigateToIndexIdle_valid cfg nav _ s (by omega) (by omega)

/-- C8: from any state where `canGoBack` holds (with the observed location
in sync with the current entry), a successful `goBack()` followed by a
successful `goForward()` returns `currentIndex` and `currentPath` to their
original values. -/
theorem C8_backForwardInverse (cfg : HistoryConfig) (s : HistoryState)
    (h0 : 0 < s.currentIndex) (h1 : s.currentIndex < s.paths.length)
    (hsync : s.location = s.paths.getD s.currentIndex "") :
    (goBack cfg (.resolved true) s).2 = true ∧
    (goForward cfg (.resolved true) (goBack cfg (.resolved true) s).1).2 =
      true ∧
    (goForward cfg (.resolved true)
        (goBack cfg (.resolved true) s).1).1.currentIndex =
      s.currentIndex ∧
    currentPath cfg
        (goForward cfg (.resolved true)
          (goBack cfg (.resolved true) s).1).1 =
      currentPath cfg s := by
  have hgb := goBack_valid cfg (.resolved true) s h0 (le_of_lt h1)
  have hgbpaths := performNavigation_paths cfg (.resolved true)
    ((s.currentIndex : Int) - 1) s
  have hgbci := performNavigation_currentIndex cfg (.resolved true)
    ((s.currentIndex : Int) - 1) s
  have hci1 : ((s.currentIndex : Int) - 1).toNat = s.currentIndex - 1 := by
    omega
  set t := (performNavigation cfg (.resolved true)
    ((s.currentIndex : Int) - 1) s).1 with ht
  have htci : t.currentIndex = s.currentIndex - 1 := by
    rw [hgbci, hci1]
  have htpaths : t.paths = s.paths := hgbpaths
  have hgf := goForward_valid cfg (.resolved true) t
    (by rw [htci, htpaths]; omega)
  have hidx : ((t.currentIndex : Int) + 1) = (s.currentIndex : Int) := by
    rw [htci]
    omega
  have hgfci := performNavigation_currentIndex cfg (.resolved true)
    ((t.currentIndex : Int) + 1) t
  obtain ⟨hgf2, hgfloc, _⟩ := performNavigation_success_spec cfg
    ((t.currentIndex : Int) + 1) t
  refine ⟨?_, ?_, ?_, ?_⟩
  · rw [hgb]
    exact (performNavigation_success_spec cfg _ s).1
  · rw [hgb, ← ht, hgf]
    exact hgf2
  · rw [hgb, ← ht, hgf, hgfci, hidx]
    omega
  · rw [hgb, ← ht, hgf]
    have hloc : (performNavigation cfg (.resolved true)
        ((t.currentIndex : Int) + 1) t).1.location = s.location := by
      rw [hgfloc, htpaths, hidx, hsync]
      simp
    simp only [currentPath, hloc]

/-- Witness for C8 at stack `[/a,/b]`, index 1, location `/b`. -/
theorem C8_backForwardInverse_witness :
    (goForward DEFAULT_HISTORY_CONFIG (.resolved true)
        (goBack DEFAULT_HISTORY_CONFIG (.resolved true)
          { freshState "/b" with
              paths := ["/a", "/b"],
              currentIndex := 1 }).1).1.currentIndex = 1 ∧
    currentPath DEFAULT_HISTORY_CONFIG
        (goForward DEFAULT_HISTORY_CONFIG (.resolved true)
          (goBack DEFAULT_HISTORY_CONFIG (.resolved true)
            { freshState "/b" with
                paths := ["/a", "/b"], currentIndex := 1 }).1).1 =
      "/b" := by
  have h := C8_backForwardInverse DEFAULT_HISTORY_CONFIG
    { freshState "/b" with paths := ["/a", "/b"], currentIndex := 1 }
    (by decide) (by decide) (by decide)
  exact ⟨h.2.2.1, h.2.2.2⟩

end NgxHistory
